import Mathlib

/-!
Shallow embedding, in Lean 4, of the core of `gh-iterator-filter-cel`
(module `github.com/jcchavezs/gh-iterator-run`) and of its vendored
library `github.com/jcchavezs/gh-iterator`.

Conventions used throughout:
* Go `int` fields are modelled as `Int`; counters that only ever grow from
  zero are modelled as `Nat`.
* Go `time.Time` is modelled by the `GoTime` record of calendar fields,
  which is all the code under verification reads from it (the cache-key
  formatting and the derived CEL field map).
* External effects (running git/gh commands, evaluating a compiled CEL
  program, the caller supplied processor) are modelled as explicit oracle
  functions passed to the embedded definitions; the embedded code is the
  deterministic glue that the repository itself contains.
-/

set_option autoImplicit false

namespace GhIterator

/-- Model of Go `time.Time` restricted to the calendar/clock components the
embedded code reads (`Format` with layout `02T15_04_05.999999999` and the
`pushedAt` field of the CEL map). -/
structure GoTime where
  year : Nat
  month : Nat
  day : Nat
  hour : Nat
  minute : Nat
  second : Nat
  nanosecond : Nat
deriving DecidableEq, Repr

/-- `Repository` from `gh-iterator` (struct in the vendored iterator
package): one GitHub repository record as decoded from the API response. -/
structure Repository where
  Name : String
  URL : String
  SSHURL : String
  DefaultBranchName : String
  Archived : Bool
  Language : String
  Visibility : String
  Fork : Bool
  Size : Int
  PushedAt : GoTime
deriving DecidableEq, Repr

/-- `Visibility` enum from `options.go` (`VisibilityNone` is the zero
value). -/
inductive GoVisibility
  | VisibilityNone
  | VisibilityPublic
  | VisibilityPrivate
  | VisibilityInternal
deriving DecidableEq, Repr

/-- The `String()` method of `Visibility` in `options.go`. -/
def GoVisibility.toStr : GoVisibility → String
  | .VisibilityPublic => "public"
  | .VisibilityPrivate => "private"
  | .VisibilityInternal => "internal"
  | .VisibilityNone => ""

/-- `ArchiveCondition` enum from `options.go` (`IncludeArchived` is the zero
value). -/
inductive ArchiveCondition
  | IncludeArchived
  | OnlyArchived
  | OmitArchived
deriving DecidableEq, Repr

/-- `Source` enum from `options.go` (`AllSources` is the zero value). -/
inductive Source
  | AllSources
  | OnlyForks
  | OnlyNonForks
deriving DecidableEq, Repr

/-- `SizeCondition` enum from `options.go` (`All` is the zero value). -/
inductive SizeCondition
  | All
  | NotEmpty
  | OnlyEmpty
deriving DecidableEq, Repr

/-- `SearchOptions` from `options.go`. `FilterIn` is the optional custom
predicate (a `nil` Go function value is `none`); `Cache` (a duration) is
kept as an integer of nanoseconds. -/
structure SearchOptions where
  Languages : List String := []
  ArchiveCondition : ArchiveCondition := .IncludeArchived
  Visibility : GoVisibility := .VisibilityNone
  Source : Source := .AllSources
  PerPage : Int := 0
  Page : Int := 0
  SizeCondition : SizeCondition := .All
  FilterIn : Option (Repository → Bool) := none
  Cache : Int := 0

/-- Model of Go `strings.EqualFold` restricted to simple case folding via
lower-casing both sides (the repository only compares ASCII language
names). -/
def equalFold (a b : String) : Bool :=
  a.toLower == b.toLower

/-- `SearchOptions.MakeFilterIn` from `options.go`: collects the configured
structural filters (custom predicate, language allow-list, archive
tri-state, source tri-state, visibility, size tri-state) in source order
and ANDs them; the compiled chain returns `false` at the first failing
filter and `true` when every filter passes. -/
def SearchOptions.MakeFilterIn (so : SearchOptions) : Repository → Bool :=
  let filters : List (Repository → Bool) :=
    (match so.FilterIn with
      | some f => [f]
      | none => ([] : List (Repository → Bool)))
    ++ (if so.Languages.length > 0 then
          [fun r => so.Languages.any fun l => equalFold l r.Language]
        else ([] : List (Repository → Bool)))
    ++ (match so.ArchiveCondition with
      | .OnlyArchived => [fun r => r.Archived]
      | .OmitArchived => [fun r => !r.Archived]
      | .IncludeArchived => ([] : List (Repository → Bool)))
    ++ (match so.Source with
      | .OnlyForks => [fun r => r.Fork]
      | .OnlyNonForks => [fun r => !r.Fork]
      | .AllSources => ([] : List (Repository → Bool)))
    ++ (if so.Visibility ≠ GoVisibility.VisibilityNone then
          [fun r => r.Visibility == so.Visibility.toStr]
        else ([] : List (Repository → Bool)))
    ++ (match so.SizeCondition with
      | .NotEmpty => [fun r => decide (0 < r.Size)]
      | .OnlyEmpty => [fun r => decide (r.Size = 0)]
      | .All => ([] : List (Repository → Bool)))
  fun r => filters.all fun f => f r

/-- `defaultSearchFilterIn` from `filter.go`: the predicate used by the CLI
when no CEL search filter is given. -/
def defaultSearchFilterIn (r : Repository) : Bool :=
  !r.Archived && !r.Fork && decide (0 < r.Size)

/-- The `SearchOptions` value `main.go` passes to `RunForOrganization` when
the user supplies no `--search-filter` flag: `parseSearchFilterIn ""`
returns `defaultSearchFilterIn`, which becomes the `FilterIn` field; the
flag defaults give `PerPage = 100` and `Page = -1` (all pages); every other
field keeps its zero value. -/
def noFilterFlagsSearchOptions : SearchOptions :=
  { FilterIn := some defaultSearchFilterIn
    PerPage := 100
    Page := -1 }

/-! ### MD5 and the clone cache directory name

`hashCloningSubset` in the iterator calls `md5.Sum` on the `"|"`-joined
subset and keeps the first 16 hex characters. The MD5 compression function
is implemented here in full (RFC 1321), over byte lists, with 32-bit words
as `Nat` reduced modulo `2 ^ 32`. -/

/-- UTF-8 encoding of one character as its byte values (Go strings are
UTF-8 byte sequences and `md5.Sum` consumes those bytes). -/
def charUtf8 (c : Char) : List Nat :=
  let n := c.toNat
  if n < 0x80 then [n]
  else if n < 0x800 then
    [0xC0 ||| (n >>> 6), 0x80 ||| (n &&& 0x3F)]
  else if n < 0x10000 then
    [0xE0 ||| (n >>> 12), 0x80 ||| ((n >>> 6) &&& 0x3F), 0x80 ||| (n &&& 0x3F)]
  else
    [0xF0 ||| (n >>> 18), 0x80 ||| ((n >>> 12) &&& 0x3F),
     0x80 ||| ((n >>> 6) &&& 0x3F), 0x80 ||| (n &&& 0x3F)]

/-- The bytes of a string, as Go sees it. -/
def utf8Bytes (s : String) : List Nat :=
  (s.data.map charUtf8).flatten

/-- `k` little-endian bytes of `n`. -/
def leBytes : Nat → Nat → List Nat
  | 0, _ => []
  | k + 1, n => (n % 256) :: leBytes k (n / 256)

/-- Rotate a 32-bit word left by `n` bits. -/
def rotl32 (x n : Nat) : Nat :=
  ((x <<< n) ||| (x >>> (32 - n))) % 4294967296

/-- The 64 MD5 sine constants `K[i]` (RFC 1321). -/
def md5K : List Nat :=
  [0xd76aa478, 0xe8c7b756, 0x242070db, 0xc1bdceee,
   0xf57c0faf, 0x4787c62a, 0xa8304613, 0xfd469501,
   0x698098d8, 0x8b44f7af, 0xffff5bb1, 0x895cd7be,
   0x6b901122, 0xfd987193, 0xa679438e, 0x49b40821,
   0xf61e2562, 0xc040b340, 0x265e5a51, 0xe9b6c7aa,
   0xd62f105d, 0x02441453, 0xd8a1e681, 0xe7d3fbc8,
   0x21e1cde6, 0xc33707d6, 0xf4d50d87, 0x455a14ed,
   0xa9e3e905, 0xfcefa3f8, 0x676f02d9, 0x8d2a4c8a,
   0xfffa3942, 0x8771f681, 0x6d9d6122, 0xfde5380c,
   0xa4beea44, 0x4bdecfa9, 0xf6bb4b60, 0xbebfbc70,
   0x289b7ec6, 0xeaa127fa, 0xd4ef3085, 0x04881d05,
   0xd9d4d039, 0xe6db99e5, 0x1fa27cf8, 0xc4ac5665,
   0xf4292244, 0x432aff97, 0xab9423a7, 0xfc93a039,
   0x655b59c3, 0x8f0ccc92, 0xffeff47d, 0x85845dd1,
   0x6fa87e4f, 0xfe2ce6e0, 0xa3014314, 0x4e0811a1,
   0xf7537e82, 0xbd3af235, 0x2ad7d2bb, 0xeb86d391]

/-- The 64 MD5 per-operation shift amounts `s[i]` (RFC 1321). -/
def md5S : List Nat :=
  [7, 12, 17, 22, 7, 12, 17, 22, 7, 12, 17, 22, 7, 12, 17, 22,
   5, 9, 14, 20, 5, 9, 14, 20, 5, 9, 14, 20, 5, 9, 14, 20,
   4, 11, 16, 23, 4, 11, 16, 23, 4, 11, 16, 23, 4, 11, 16, 23,
   6, 10, 15, 21, 6, 10, 15, 21, 6, 10, 15, 21, 6, 10, 15, 21]

/-- MD5 padding: append `0x80`, zero-fill to 56 mod 64, then the 64-bit
little-endian bit length. -/
def md5Pad (msg : List Nat) : List Nat :=
  let bitLen := msg.length * 8
  let zeros := (120 - ((msg.length + 1) % 64)) % 64
  msg ++ [0x80] ++ List.replicate zeros 0 ++ leBytes 8 bitLen

/-- The 64-byte blocks of a padded message. -/
def md5Blocks (l : List Nat) : List (List Nat) :=
  (List.range (l.length / 64)).map fun i => (l.drop (64 * i)).take 64

/-- Word `j` of a block, read little-endian. -/
def leWord (block : List Nat) (j : Nat) : Nat :=
  block.getD (4 * j) 0 + 256 * block.getD (4 * j + 1) 0
    + 65536 * block.getD (4 * j + 2) 0 + 16777216 * block.getD (4 * j + 3) 0

/-- One MD5 operation (operation index `i` from 0 to 63) on state
`(a, b, c, d)` with message words `w`. -/
def md5Round (w : List Nat) (st : Nat × Nat × Nat × Nat) (i : Nat) :
    Nat × Nat × Nat × Nat :=
  let a := st.1
  let b := st.2.1
  let c := st.2.2.1
  let d := st.2.2.2
  let fg : Nat × Nat :=
    if i < 16 then ((b &&& c) ||| ((b ^^^ 0xFFFFFFFF) &&& d), i)
    else if i < 32 then ((d &&& b) ||| ((d ^^^ 0xFFFFFFFF) &&& c), (5 * i + 1) % 16)
    else if i < 48 then (b ^^^ c ^^^ d, (3 * i + 5) % 16)
    else (c ^^^ (b ||| (d ^^^ 0xFFFFFFFF)), (7 * i) % 16)
  let tmp := (fg.1 + a + md5K.getD i 0 + w.getD fg.2 0) % 4294967296
  (d, (b + rotl32 tmp (md5S.getD i 0)) % 4294967296, b, c)

/-- MD5 compression of one block into the running state. -/
def md5Compress (st : Nat × Nat × Nat × Nat) (block : List Nat) :
    Nat × Nat × Nat × Nat :=
  let w := (List.range 16).map (leWord block)
  let r := (List.range 64).foldl (md5Round w) st
  ((st.1 + r.1) % 4294967296, (st.2.1 + r.2.1) % 4294967296,
   (st.2.2.1 + r.2.2.1) % 4294967296, (st.2.2.2 + r.2.2.2) % 4294967296)

/-- The MD5 initial state. -/
def md5Init : Nat × Nat × Nat × Nat :=
  (0x67452301, 0xefcdab89, 0x98badcfe, 0x10325476)

/-- Lowercase hex digit. -/
def hexDigitChar (n : Nat) : Char :=
  if n < 10 then Char.ofNat (48 + n) else Char.ofNat (87 + n)

/-- Two lowercase hex characters of one byte. -/
def byteHex (b : Nat) : String :=
  String.mk [hexDigitChar (b / 16), hexDigitChar (b % 16)]

/-- Lowercase hex string of a byte list, as Go `fmt.Sprintf` with verb
`x` renders an MD5 digest. -/
def bytesToHex (l : List Nat) : String :=
  String.join (l.map byteHex)

/-- The full MD5 digest of a byte message, rendered as 32 lowercase hex
characters. -/
def md5Hex (msg : List Nat) : String :=
  let f := (md5Blocks (md5Pad msg)).foldl md5Compress md5Init
  bytesToHex (leBytes 4 f.1 ++ leBytes 4 f.2.1 ++ leBytes 4 f.2.2.1 ++ leBytes 4 f.2.2.2)

/-- `hashCloningSubset` from the iterator: first 16 hex characters of the
MD5 digest of the subset patterns joined with `"|"`. -/
def hashCloningSubset (cs : List String) : String :=
  (md5Hex (utf8Bytes (String.intercalate "|" cs))).take 16

/-- `Options` from the iterator (the fields the embedded code reads;
`CloneCacheKey` is the optional per-repository cache-key function, `nil`
in Go being `none`). -/
structure Options where
  UseHTTPS : Bool := false
  CloneCacheKey : Option (Repository → String) := none
  CloningSubset : List String := []
  NumberOfWorkers : Int := 0
  Debug : Bool := false

/-- The clone directory name computed in `cloneRepositoryOrGetFromCache`:
`repo.Name + "-" + cacheKey`, with `"-" + hashCloningSubset(subset)`
appended when the cloning subset is non-empty. -/
def cloneDirName (repo : Repository) (cacheKey : String) (cloningSubset : List String) : String :=
  let base := repo.Name ++ "-" ++ cacheKey
  if cloningSubset.length > 0 then base ++ "-" ++ hashCloningSubset cloningSubset else base

/-- Left-pad the decimal rendering of `n` with zeros to 2 characters
(Go layout verb `02`, `15`, `04`, `05`). -/
def padZero2 (n : Nat) : String :=
  if n < 10 then "0" ++ toString n else toString n

/-- Left-pad the decimal rendering of `n` with zeros to 9 characters. -/
def padZeros9 (n : Nat) : String :=
  let s := toString n
  String.mk (List.replicate (9 - s.length) '0' ++ s.data)

/-- Drop trailing `'0'` characters. -/
def trimTrailingZeroChars (s : String) : String :=
  String.mk ((s.data.reverse.dropWhile fun c => c = '0').reverse)

/-- Go layout fragment `.999999999`: the fractional second with trailing
zeros removed, the whole fragment (dot included) omitted when zero. -/
def goFrac9 (nanos : Nat) : String :=
  let t := trimTrailingZeroChars (padZeros9 nanos)
  if t = "" then "" else "." ++ t

/-- `time.Now().Format("02T15_04_05.999999999")` in
`cloneRepositoryOrGetFromCache`: the cache key synthesized when no caller
key is available. Note the layout renders only day-of-month, clock time
and fraction; year and month do not appear. -/
def synthesizedCloneCacheKey (t : GoTime) : String :=
  padZero2 t.day ++ "T" ++ padZero2 t.hour ++ "_" ++ padZero2 t.minute
    ++ "_" ++ padZero2 t.second ++ goFrac9 t.nanosecond

/-- The cache-key computation of `cloneRepositoryOrGetFromCache`: apply the
caller key function when present; when the resulting key is empty,
synthesize one from the current time and mark the directory to be returned
directly (second component `shouldReturnDirectly`). -/
def cacheKeyForCall (opts : Options) (repo : Repository) (now : GoTime) : String × Bool :=
  let cacheKey : String :=
    match opts.CloneCacheKey with
    | some f => f repo
    | none => ""
  if cacheKey = "" then (synthesizedCloneCacheKey now, true) else (cacheKey, false)

/-- The clone directory a call of `cloneRepositoryOrGetFromCache` resolves
to (relative to the repos root), as a function of the options, the
repository and the wall-clock instant of the call. -/
def cloneDirForCall (opts : Options) (repo : Repository) (now : GoTime) : String :=
  cloneDirName repo (cacheKeyForCall opts repo now).1 opts.CloningSubset

/-! ### The CEL predicate wrapper (`filter.go`) -/

/-- The derived field map `repoMap` built in `parseSearchFilterIn` before
each evaluation of the compiled CEL program. -/
structure RepoFieldMap where
  name : String
  archived : Bool
  language : String
  visibility : String
  fork : Bool
  isEmpty : Bool
  pushedAt : GoTime
deriving DecidableEq, Repr

/-- `repoMap` from `filter.go`: the field map derived from a repository
(`isEmpty` is `size == 0`). -/
def repoFieldMap (r : Repository) : RepoFieldMap :=
  { name := r.Name
    archived := r.Archived
    language := r.Language
    visibility := r.Visibility
    fork := r.Fork
    isEmpty := decide (r.Size = 0)
    pushedAt := r.PushedAt }

/-- A dynamic CEL value as observed by the wrapper: the Go code only asks
whether the value is a `bool` (type assertion `out.Value().(bool)`), so
non-boolean results are grouped by representative carriers. -/
inductive CelValue
  | bool (b : Bool)
  | int (n : Int)
  | str (s : String)
deriving DecidableEq, Repr

/-- The closure returned by `parseSearchFilterIn` for a compiled CEL
program `prg` (an oracle from the derived field map to an evaluation
outcome). It returns the decision together with the diagnostic emitted, if
any: on evaluator error it logs `Failed to evaluate CEL expression` and
returns `false`; on a successful evaluation it returns the boolean value,
or `false` when the value is not a boolean (`ok && result`), emitting no
diagnostic. The wrapper is total: no outcome propagates an error. -/
def celFilterIn (prg : RepoFieldMap → Except String CelValue) (r : Repository) :
    Bool × Option String :=
  match prg (repoFieldMap r) with
  | .error e => (false, some ("Failed to evaluate CEL expression: " ++ e))
  | .ok (.bool b) => (b, none)
  | .ok _ => (false, none)

/-- `parseSearchFilterIn` from `filter.go`, with CEL compilation as an
oracle: an empty condition yields `defaultSearchFilterIn`; a compile
failure is returned as an error; otherwise the wrapper around the compiled
program is returned. -/
def parseSearchFilterIn
    (cond : String)
    (compile : String → Except String (RepoFieldMap → Except String CelValue)) :
    Except String (Repository → Bool) :=
  if cond = "" then .ok defaultSearchFilterIn
  else
    match compile cond with
    | .error e => .error e
    | .ok prg => .ok fun r => (celFilterIn prg r).1

/-! ### The clone sequence (`cloneRepository`) -/

/-- The external commands issued by `cloneRepository`, in the order the
code runs them (`fillLines` on `.git/info/sparse-checkout` is modelled as
the `writeSparseFile` effect). -/
inductive GitCommand
  | gitInit
  | remoteAddOrigin (url : String)
  | configSparseCheckout
  | writeSparseFile (lines : List String)
  | fetchOrigin (branch : String)
  | checkout (branch : String)
deriving DecidableEq, Repr

/-- The errors `cloneRepository` can return: the sentinel
`errNoDefaultBranch`, or a failing command wrapped with the step message. -/
inductive CloneError
  | noDefaultBranch
  | execFailed (step : String) (e : String)
deriving DecidableEq, Repr

/-- `cloneRepository` from the iterator, with command execution as an
oracle `runx`: `git init`; `git remote add origin <url>` (SSH URL, or
HTTPS URL when `UseHTTPS`); when a cloning subset is configured,
`git config core.sparseCheckout true` and the sparse-checkout file write;
then the `errNoDefaultBranch` check on an empty default branch name;
finally `git fetch origin <branch>` and `git checkout <branch>`. -/
def cloneRepository (runx : GitCommand → Except String String)
    (repo : Repository) (opts : Options) : Except CloneError Unit :=
  match runx .gitInit with
  | .error e => .error (.execFailed "cloning repository" e)
  | .ok _ =>
    let repoURL := if opts.UseHTTPS then repo.URL else repo.SSHURL
    match runx (.remoteAddOrigin repoURL) with
    | .error e => .error (.execFailed "adding origin" e)
    | .ok _ =>
      let sparse : Except CloneError Unit :=
        if opts.CloningSubset.length > 0 then
          match runx .configSparseCheckout with
          | .error e => .error (.execFailed "setting sparse checkout subset" e)
          | .ok _ =>
            match runx (.writeSparseFile opts.CloningSubset) with
            | .error e => .error (.execFailed "setting cloning subset" e)
            | .ok _ => .ok ()
        else .ok ()
      match sparse with
      | .error e => .error e
      | .ok _ =>
        if repo.DefaultBranchName = "" then .error .noDefaultBranch
        else
          match runx (.fetchOrigin repo.DefaultBranchName) with
          | .error e => .error (.execFailed "fetching HEAD" e)
          | .ok _ =>
            match runx (.checkout repo.DefaultBranchName) with
            | .error e => .error (.execFailed "checking out HEAD" e)
            | .ok _ => .ok ()

/-! ### Per-repository processing (`processRepository`) -/

/-- Outcome of one per-repository processing unit, as the dispatcher
observes it: success, the recoverable `errNoDefaultBranch` sentinel, or a
fatal error message. -/
inductive ProcResult
  | ok
  | noDefaultBranch
  | fatal (e : String)
deriving DecidableEq, Repr

/-- Observable events of one `processRepository` call: the caller
processor invocation (with the `isEmpty` flag and the execer root
directory it receives), the acquisition of a clone directory from
`cloneRepositoryOrGetFromCache`, and the deferred directory removal. -/
inductive RepoEvent
  | processorCalled (repository : String) (isEmpty : Bool) (dir : String)
  | acquiredClone (dir : String)
  | removedDir (dir : String)
deriving DecidableEq, Repr

/-- `processRepository` from the iterator, with the clone/cache manager
and the caller processor as oracles, returning the event trace and the
outcome. A repository of size 0 is handed to the processor immediately
with `isEmpty = true` and `exec.NewExecer("")` (an execer rooted at the
empty path), a processor error being wrapped with
`processing empty repository`; otherwise a directory is acquired, the
processor runs in it with `isEmpty = false`, and the directory is removed
afterwards (deferred removal, also on processor error). -/
def processRepository
    (acquire : Repository → Except CloneError String)
    (processor : String → Bool → String → Except String Unit)
    (repo : Repository) : List RepoEvent × ProcResult :=
  if repo.Size = 0 then
    ([.processorCalled repo.Name true ""],
      match processor repo.Name true "" with
      | .ok _ => .ok
      | .error e => .fatal ("processing empty repository: " ++ e))
  else
    match acquire repo with
    | .error .noDefaultBranch => ([], .noDefaultBranch)
    | .error (.execFailed step e) => ([], .fatal (step ++ ": " ++ e))
    | .ok repoDir =>
      ([.acquiredClone repoDir, .processorCalled repo.Name false repoDir,
        .removedDir repoDir],
        match processor repo.Name false repoDir with
        | .ok _ => .ok
        | .error e => .fatal e)

/-! ### The dispatcher (`runForReposConcurrently`)

The Go dispatcher runs one producer goroutine and `N` worker goroutines.
Submission order is deterministic (page order, then intra-page order) and
the first fatal error wins. The model below is its sequential semantics:
records are visited in submission order, the counters are updated exactly
as the producer does under its lock, an accepted record is dispatched and
its outcome handled as the worker loop does (absorbing
`errNoDefaultBranch` with a warning, stopping the run on any other
error). -/

/-- Wrapper the worker applies to a fatal error:
`fmt.Errorf("processing %q: %w", repo.Name, err)`. -/
def wrapProcessingError (name e : String) : String :=
  "processing \"" ++ name ++ "\": " ++ e

/-- The mutable state of a run: the two counters guarded by the shared
lock, the names dispatched to workers in order, and the warning log
entries (each recording the repository named by a
`Repository with no default branch` warning). -/
structure RunState where
  inspected : Nat
  processed : Nat
  dispatched : List String
  warnings : List String
deriving DecidableEq, Repr

/-- The initial run state. -/
def initialRunState : RunState :=
  { inspected := 0, processed := 0, dispatched := [], warnings := [] }

/-- `Result` from the iterator: the counters returned on clean
completion. -/
structure Result where
  Found : Nat
  Inspected : Nat
  Processed : Nat
deriving DecidableEq, Repr

/-- The sequential dispatch loop over the flattened record stream: for
each record, increment `Inspected`; skip it when the filter rejects it;
otherwise increment `Processed`, dispatch it and run it. An
`errNoDefaultBranch` outcome appends a warning naming the repository and
continues; any other error stops the loop, yielding the error wrapped
with the repository name. -/
def runLoop (filterIn : Repository → Bool) (proc : Repository → ProcResult) :
    List Repository → RunState → RunState × Option String
  | [], st => (st, none)
  | r :: rest, st =>
    let st1 : RunState := { st with inspected := st.inspected + 1 }
    if filterIn r then
      let st2 : RunState :=
        { st1 with
          processed := st1.processed + 1
          dispatched := st1.dispatched ++ [r.Name] }
      match proc r with
      | .ok => runLoop filterIn proc rest st2
      | .noDefaultBranch =>
          runLoop filterIn proc rest { st2 with warnings := st2.warnings ++ [r.Name] }
      | .fatal e => (st2, some (wrapProcessingError r.Name e))
    else
      runLoop filterIn proc rest st1

/-- `Found`: the sum of all page lengths, computed eagerly before any
filtering. -/
def mFound (repoPages : List (List Repository)) : Nat :=
  (repoPages.map List.length).sum

/-- The sequential semantics of `runForReposConcurrently`: compute
`Found` from the page lengths, run the dispatch loop over the pages in
order, and return either the zero `Result` with the first fatal error, or
the final counters with no error. -/
def runForReposConcurrentlySeq (filterIn : Repository → Bool)
    (proc : Repository → ProcResult) (repoPages : List (List Repository)) :
    Result × Option String :=
  let found := mFound repoPages
  let out := runLoop filterIn proc repoPages.flatten initialRunState
  match out.2 with
  | some e => ({ Found := 0, Inspected := 0, Processed := 0 }, some e)
  | none => ({ Found := found, Inspected := out.1.inspected, Processed := out.1.processed }, none)

/-! ### Entry-point prefixes (`RunForRepository`, `RunForOrganization`) -/

/-- Go `strings.Count(s, "/")` for the single-character separator. -/
def stringsCountChar (s : String) (c : Char) : Nat :=
  s.data.count c

/-- How `RunForRepository` starts: either the immediate
`incorrect repository name` validation error, or the fetch of
`/repos/<name>` (the first external call). -/
inductive RunForRepositoryStart
  | incorrectName (msg : String)
  | fetchRepository (target : String)
deriving DecidableEq, Repr

/-- Whether the start outcome is the name-validation error. -/
def RunForRepositoryStart.isIncorrectName : RunForRepositoryStart → Bool
  | .incorrectName _ => true
  | .fetchRepository _ => false

/-- The prefix of `RunForRepository` up to its first external call: the
name is rejected when it contains more than one `/`, before anything else
runs; otherwise the repository is fetched from `/repos/<name>`. -/
def runForRepositoryStart (repoName : String) : RunForRepositoryStart :=
  if stringsCountChar repoName '/' > 1 then
    .incorrectName ("incorrect repository name \"" ++ repoName ++ "\"")
  else
    .fetchRepository ("/repos/" ++ repoName)

/-- `defaultPerPage` from `options.go`. -/
def defaultPerPage : Int := 100

/-- `maxPerPage` from `options.go`. -/
def maxPerPage : Int := 1000

/-- How `RunForOrganization` starts: a pagination validation error
(returned before the listing request is issued), or the listing request
with its target URL and whether `--paginate` is passed. -/
inductive OrgRunStart
  | invalidPerPage
  | invalidPage
  | listing (target : String) (paginate : Bool)
deriving DecidableEq, Repr

/-- Whether the start outcome is the listing request. -/
def OrgRunStart.isListing : OrgRunStart → Bool
  | .listing _ _ => true
  | _ => false

/-- The `Page` handling of `RunForOrganization` applied after the
per-page handling: `AllPages` (-1) turns on `--paginate`; a positive page
is appended as `&page=<n>`; any other negative page is the
`invalid negative SearchOptions.Page` error; page 0 leaves the target
unchanged. -/
def pageStep (target : String) (page : Int) : OrgRunStart :=
  if page = -1 then .listing target true
  else if page > 0 then .listing (target ++ "&page=" ++ toString page) false
  else if page ≠ 0 then .invalidPage
  else .listing target false

/-- The prefix of `RunForOrganization` up to the listing request:
`PerPage` equal to 0 or above `maxPerPage` silently falls back to
`defaultPerPage`; a positive `PerPage` is used as given; a negative
`PerPage` is the immediate `invalid negative SearchOptions.PerPage`
error, before the page handling and before any listing request. -/
def runForOrganizationStart (orgName : String) (perPage page : Int) : OrgRunStart :=
  let target := "/orgs/" ++ orgName ++ "/repos"
  if perPage = 0 || perPage > maxPerPage then
    pageStep (target ++ "?per_page=" ++ toString defaultPerPage) page
  else if perPage > 0 then
    pageStep (target ++ "?per_page=" ++ toString perPage) page
  else .invalidPerPage

/-! ### Concrete sample inputs used by witnesses and counterexamples -/

/-- A fixed instant. -/
def sampleTime : GoTime := ⟨2025, 10, 11, 12, 0, 0, 0⟩

/-- An ordinary active repository. -/
def plainRepo : Repository :=
  { Name := "acme/lib"
    URL := "https://github.com/acme/lib.git"
    SSHURL := "git@github.com:acme/lib.git"
    DefaultBranchName := "main"
    Archived := false
    Language := "Go"
    Visibility := "public"
    Fork := false
    Size := 42
    PushedAt := sampleTime }

/-- An archived repository. -/
def archivedRepo : Repository := { plainRepo with Name := "acme/old", Archived := true }

/-- A repository record carrying a negative size. -/
def negativeSizeRepo : Repository := { plainRepo with Name := "acme/neg", Size := -1 }

/-- An empty repository (`size == 0`). -/
def emptyRepo : Repository := { plainRepo with Name := "acme/empty", Size := 0 }

/-- A repository with an empty default branch name. -/
def noBranchRepo : Repository := { plainRepo with Name := "acme/nobranch", DefaultBranchName := "" }

/-- A repository on which the processing oracle `procByName` fails. -/
def badRepo : Repository := { plainRepo with Name := "acme/bad" }

/-- A command oracle on which every git command succeeds. -/
def runxOk : GitCommand → Except String String := fun _ => .ok ""

/-- A clone/cache oracle that always yields a directory. -/
def acquireOk : Repository → Except CloneError String := fun r => .ok (r.Name ++ "-dir")

/-- A processor oracle that always succeeds. -/
def processorOk : String → Bool → String → Except String Unit := fun _ _ _ => .ok ()

/-- A processing oracle that fails fatally on `acme/bad` only. -/
def procByName : Repository → ProcResult :=
  fun r => if r.Name = "acme/bad" then .fatal "boom" else .ok

/-- A processing oracle that always reports the missing default branch. -/
def procNoBranch : Repository → ProcResult := fun _ => .noDefaultBranch

/-- A filter passing everything. -/
def trueFilter : Repository → Bool := fun _ => true

/-- A compiled CEL program whose evaluation yields a non-boolean value
(such as the expression `repo.Size`). -/
def celProgInt : RepoFieldMap → Except String CelValue := fun _ => .ok (.int 100)

/-- A compiled CEL program whose evaluation fails. -/
def celProgErr : RepoFieldMap → Except String CelValue := fun _ => .error "no such attribute"

/-- Options with no caller cache key, the zero value of `Options`. -/
def optsNoKey : Options := {}

/-- An instant on January 2 noon. -/
def tJan2 : GoTime := ⟨2025, 1, 2, 12, 0, 0, 0⟩

/-- A distinct instant, one month later, with the same day-of-month and
clock time. -/
def tFeb2 : GoTime := ⟨2025, 2, 2, 12, 0, 0, 0⟩

/-- Yet another instant with the same day-of-month and clock time, in
another year. -/
def tMar2 : GoTime := ⟨2026, 3, 2, 12, 0, 0, 0⟩

/-! ### C1 — the default filter chain -/

/-- C1 counterexample: the claim states the compiled chain (no languages,
default tri-states, no custom CEL predicate, hence the CLI default
`FilterIn = defaultSearchFilterIn`) returns `true` for every repository
that is not archived, not a fork and does not have size 0. A record with
a negative size is none of those, yet the chain rejects it, because the
code tests `Size > 0`, not `Size != 0`. -/
theorem defaultChain_negative_size_counterexample :
    SearchOptions.MakeFilterIn noFilterFlagsSearchOptions negativeSizeRepo = false ∧
    negativeSizeRepo.Archived = false ∧ negativeSizeRepo.Fork = false ∧
    negativeSizeRepo.Size ≠ 0 := by
  decide

/-- C1 (amended): with no filters configured (the CLI default options,
whose only filter is `defaultSearchFilterIn`), the compiled chain rejects
every repository that is archived, or a fork, or has non-positive size
(in particular every empty one of size 0); it accepts every repository
that is not archived, not a fork and has positive size; and it is not an
always-true predicate (it rejects `archivedRepo`). -/
theorem defaultChain_default_deny :
    (∀ r : Repository, r.Archived = true ∨ r.Fork = true ∨ r.Size ≤ 0 →
      SearchOptions.MakeFilterIn noFilterFlagsSearchOptions r = false) ∧
    (∀ r : Repository, r.Archived = false → r.Fork = false → 0 < r.Size →
      SearchOptions.MakeFilterIn noFilterFlagsSearchOptions r = true) ∧
    SearchOptions.MakeFilterIn noFilterFlagsSearchOptions archivedRepo = false := by
  refine ⟨?_, ?_, by decide⟩
  · intro r h
    have hred : SearchOptions.MakeFilterIn noFilterFlagsSearchOptions r
        = defaultSearchFilterIn r := by
      simp [SearchOptions.MakeFilterIn, noFilterFlagsSearchOptions]
    rw [hred, defaultSearchFilterIn]
    rcases h with h | h | h
    · simp [h]
    · simp [h]
    · simp [Int.not_lt.mpr h]
  · intro r hA hF hS
    have hred : SearchOptions.MakeFilterIn noFilterFlagsSearchOptions r
        = defaultSearchFilterIn r := by
      simp [SearchOptions.MakeFilterIn, noFilterFlagsSearchOptions]
    rw [hred, defaultSearchFilterIn]
    simp [hA, hF, hS]

/-- C1 witness: the amended theorem applied at `archivedRepo`,
`negativeSizeRepo` and `plainRepo`. -/
theorem defaultChain_default_deny_witness :
    SearchOptions.MakeFilterIn noFilterFlagsSearchOptions archivedRepo = false ∧
    SearchOptions.MakeFilterIn noFilterFlagsSearchOptions negativeSizeRepo = false ∧
    SearchOptions.MakeFilterIn noFilterFlagsSearchOptions plainRepo = true :=
  ⟨defaultChain_default_deny.1 archivedRepo (Or.inl (by decide)),
   defaultChain_default_deny.1 negativeSizeRepo (Or.inr (Or.inr (by decide))),
   defaultChain_default_deny.2.1 plainRepo (by decide) (by decide) (by decide)⟩

/-! ### C2 — the sparse-checkout subset hash -/

set_option maxRecDepth 10000 in
/-- C2 counterexample: the claim states differing subsets never produce
the same directory name. The subsets `["a|b"]` and `["a", "b"]` differ,
but `strings.Join` with separator `"|"` maps both to the string `a|b`, so
the truncated MD5 hash and hence the directory names coincide. -/
theorem cloneDirName_subset_collision :
    (["a|b"] : List String) ≠ ["a", "b"] ∧
    cloneDirName plainRepo "k" ["a|b"] = cloneDirName plainRepo "k" ["a", "b"] :=
  ⟨by decide, by rfl⟩

/-- C2 (amended): the directory name is a deterministic function of the
subset, so identical subsets always map to identical names; but the name
depends on the subset only through its emptiness and the `"|"`-joined
pattern string fed to MD5, so distinct subsets can collide (both when the
joins coincide and, in principle, by collision of the 64-bit truncated
hash). -/
theorem cloneDirName_subset_determinism :
    (∀ (r : Repository) (k : String) (cs1 cs2 : List String), cs1 = cs2 →
      cloneDirName r k cs1 = cloneDirName r k cs2) ∧
    (∀ (r : Repository) (k : String) (cs1 cs2 : List String),
      (cs1 = [] ↔ cs2 = []) →
      String.intercalate "|" cs1 = String.intercalate "|" cs2 →
      cloneDirName r k cs1 = cloneDirName r k cs2) := by
  constructor
  · intro r k cs1 cs2 h
    rw [h]
  · intro r k cs1 cs2 hemp hjoin
    by_cases h1 : cs1 = []
    · have h2 : cs2 = [] := hemp.mp h1
      rw [h1, h2]
    · have h2 : cs2 ≠ [] := fun h => h1 (hemp.mpr h)
      have l1 : cs1.length > 0 := List.length_pos.mpr h1
      have l2 : cs2.length > 0 := List.length_pos.mpr h2
      simp only [cloneDirName, hashCloningSubset, hjoin, if_pos l1, if_pos l2]

set_option maxRecDepth 10000 in
/-- C2 witness: the amended theorem applied to equal subsets and to the
distinct subsets `["a|b"]` and `["a", "b"]` whose joins coincide. -/
theorem cloneDirName_subset_determinism_witness :
    cloneDirName plainRepo "k" ["pkg/a"] = cloneDirName plainRepo "k" ["pkg/a"] ∧
    cloneDirName archivedRepo "c" ["a|b"] = cloneDirName archivedRepo "c" ["a", "b"] :=
  ⟨cloneDirName_subset_determinism.1 plainRepo "k" ["pkg/a"] ["pkg/a"] rfl,
   cloneDirName_subset_determinism.2 archivedRepo "c" ["a|b"] ["a", "b"]
     (by simp) (by rfl)⟩

/-! ### C3 — the counter invariant -/

/-- Helper: along the dispatch loop the counters only grow, the processed
counter never overtakes the inspected counter, and the inspected counter
grows by at most the number of records visited. -/
theorem runLoop_counters (f : Repository → Bool) (p : Repository → ProcResult) :
    ∀ (l : List Repository) (st : RunState), st.processed ≤ st.inspected →
      (runLoop f p l st).1.processed ≤ (runLoop f p l st).1.inspected ∧
      (runLoop f p l st).1.inspected ≤ st.inspected + l.length := by
  intro l
  induction l with
  | nil =>
    intro st h
    refine ⟨h, ?_⟩
    simp [runLoop]
  | cons r rest ih =>
    intro st h
    by_cases hf : f r = true
    · cases hp : p r with
      | ok =>
        simp only [runLoop, hf, hp, if_true]
        have h2 := ih { st with inspected := st.inspected + 1, processed := st.processed + 1, dispatched := st.dispatched ++ [r.Name] } (by simp; omega)
        simp only at h2
        refine ⟨h2.1, h2.2.trans ?_⟩
        simp only [List.length_cons]
        omega
      | noDefaultBranch =>
        simp only [runLoop, hf, hp, if_true]
        have h2 := ih { st with inspected := st.inspected + 1, processed := st.processed + 1, dispatched := st.dispatched ++ [r.Name], warnings := st.warnings ++ [r.Name] } (by simp; omega)
        simp only at h2
        refine ⟨h2.1, h2.2.trans ?_⟩
        simp only [List.length_cons]
        omega
      | fatal e =>
        simp only [runLoop, hf, hp, if_true]
        refine ⟨by simp; omega, ?_⟩
        simp [List.length_cons]
    · simp only [runLoop, hf, Bool.false_eq_true, if_false]
      have h2 := ih { st with inspected := st.inspected + 1 } (h.trans (Nat.le_succ _))
      simp only at h2
      refine ⟨h2.1, h2.2.trans ?_⟩
      simp only [List.length_cons]
      omega

/-- Helper: `Found` equals the length of the flattened record stream. -/
theorem mFound_eq_length_flatten (repoPages : List (List Repository)) :
    mFound repoPages = repoPages.flatten.length := by
  induction repoPages with
  | nil => rfl
  | cons page rest ih => simp [mFound, List.flatten_cons] at *

/-- C3: for every input (any pages, any filter, any processing outcomes)
and at every point of the run — i.e. after the dispatch loop has visited
any prefix of the flattened record stream — the counters satisfy
`0 ≤ Processed ≤ Inspected ≤ Found`, with `Found` computed eagerly from
the page lengths; and the final `Result` of the run satisfies the same
chain (on a fatal error it is the zero result). -/
theorem result_counters_invariant
    (filterIn : Repository → Bool) (proc : Repository → ProcResult)
    (repoPages : List (List Repository)) (k : Nat) :
    (0 ≤ (runLoop filterIn proc (repoPages.flatten.take k) initialRunState).1.processed ∧
      (runLoop filterIn proc (repoPages.flatten.take k) initialRunState).1.processed ≤
        (runLoop filterIn proc (repoPages.flatten.take k) initialRunState).1.inspected ∧
      (runLoop filterIn proc (repoPages.flatten.take k) initialRunState).1.inspected ≤
        mFound repoPages) ∧
    ((runForReposConcurrentlySeq filterIn proc repoPages).1.Processed ≤
        (runForReposConcurrentlySeq filterIn proc repoPages).1.Inspected ∧
      (runForReposConcurrentlySeq filterIn proc repoPages).1.Inspected ≤
        (runForReposConcurrentlySeq filterIn proc repoPages).1.Found) := by
  constructor
  · have h := runLoop_counters filterIn proc (repoPages.flatten.take k) initialRunState
      (Nat.le_refl 0)
    refine ⟨Nat.zero_le _, h.1, h.2.trans ?_⟩
    rw [mFound_eq_length_flatten]
    simp [initialRunState, List.length_take_le]
  · have h := runLoop_counters filterIn proc repoPages.flatten initialRunState (Nat.le_refl 0)
    rw [runForReposConcurrentlySeq]
    cases hout : (runLoop filterIn proc repoPages.flatten initialRunState).2 with
    | some e => simp [hout]
    | none =>
      simp only [hout]
      refine ⟨h.1, ?_⟩
      rw [mFound_eq_length_flatten]
      simpa [initialRunState] using h.2

/-! ### C5 — a fatal worker error voids the result -/

/-- Helper: over a prefix whose accepted records all end in `ok` or
`noDefaultBranch`, the dispatch loop reaches the rest of the stream with
the accumulated state, reports no error, and has dispatched exactly the
accepted records in order. -/
theorem runLoop_no_fatal_prefix (f : Repository → Bool) (p : Repository → ProcResult) :
    ∀ (pre l : List Repository) (st : RunState),
      (∀ x ∈ pre, f x = true → p x = .ok ∨ p x = .noDefaultBranch) →
      runLoop f p (pre ++ l) st = runLoop f p l (runLoop f p pre st).1 ∧
      (runLoop f p pre st).2 = none ∧
      (runLoop f p pre st).1.dispatched =
        st.dispatched ++ (pre.filter f).map Repository.Name := by
  intro pre
  induction pre with
  | nil => intro l st _; simp [runLoop]
  | cons r rest ih =>
    intro l st hok
    have hr := hok r (List.mem_cons_self r rest)
    have hrest : ∀ x ∈ rest, f x = true → p x = .ok ∨ p x = .noDefaultBranch :=
      fun x hx => hok x (List.mem_cons_of_mem r hx)
    by_cases hf : f r = true
    · rcases hr hf with hp | hp
      · simp only [List.cons_append, runLoop, hf, hp, if_true]
        have h2 := ih l { st with inspected := st.inspected + 1, processed := st.processed + 1, dispatched := st.dispatched ++ [r.Name] } hrest
        refine ⟨h2.1, h2.2.1, ?_⟩
        rw [h2.2.2]
        simp [List.filter_cons, hf]
      · simp only [List.cons_append, runLoop, hf, hp, if_true]
        have h2 := ih l { st with inspected := st.inspected + 1, processed := st.processed + 1, dispatched := st.dispatched ++ [r.Name], warnings := st.warnings ++ [r.Name] } hrest
        refine ⟨h2.1, h2.2.1, ?_⟩
        rw [h2.2.2]
        simp [List.filter_cons, hf]
    · simp only [List.cons_append, runLoop, hf, Bool.false_eq_true, if_false]
      have h2 := ih l { st with inspected := st.inspected + 1 } hrest
      refine ⟨h2.1, h2.2.1, ?_⟩
      rw [h2.2.2]
      simp [List.filter_cons, hf]

/-- C5: when the record stream is a prefix of cleanly-handled records
followed by an accepted record whose processing fails with an error other
than `errNoDefaultBranch`, the run returns exactly that error wrapped
with the repository name as its sole error value, the returned `Result`
is the zero value, and dispatching stops at the failing record: the
dispatched sequence is the accepted prefix followed by the failing
repository, nothing after it. -/
theorem worker_error_voids_result
    (f : Repository → Bool) (p : Repository → ProcResult)
    (repoPages : List (List Repository)) (pre post : List Repository)
    (r : Repository) (e : String)
    (hsplit : repoPages.flatten = pre ++ r :: post)
    (hpre : ∀ x ∈ pre, f x = true → p x = .ok ∨ p x = .noDefaultBranch)
    (hf : f r = true) (hp : p r = .fatal e) :
    runForReposConcurrentlySeq f p repoPages =
      ({ Found := 0, Inspected := 0, Processed := 0 },
        some (wrapProcessingError r.Name e)) ∧
    (runLoop f p repoPages.flatten initialRunState).1.dispatched =
      (pre.filter f).map Repository.Name ++ [r.Name] := by
  obtain ⟨hcont, -, hdisp⟩ := runLoop_no_fatal_prefix f p pre (r :: post) initialRunState hpre
  have hstep : ∀ st : RunState, runLoop f p (r :: post) st =
      ({ inspected := st.inspected + 1, processed := st.processed + 1, dispatched := st.dispatched ++ [r.Name], warnings := st.warnings }, some (wrapProcessingError r.Name e)) := by
    intro st
    simp [runLoop, hf, hp]
  have hrun : runLoop f p repoPages.flatten initialRunState =
      ({ inspected := (runLoop f p pre initialRunState).1.inspected + 1, processed := (runLoop f p pre initialRunState).1.processed + 1, dispatched := (runLoop f p pre initialRunState).1.dispatched ++ [r.Name], warnings := (runLoop f p pre initialRunState).1.warnings }, some (wrapProcessingError r.Name e)) := by
    rw [hsplit, hcont, hstep]
  constructor
  · simp [runForReposConcurrentlySeq, hrun]
  · rw [hrun]
    dsimp only
    rw [hdisp]
    simp [initialRunState]

/-- C5 witness: a stream of two pages where the second record is accepted
and fails fatally; the run returns the zero result with the wrapped
error, and only the first two records were dispatched. -/
theorem worker_error_voids_result_witness :
    runForReposConcurrentlySeq defaultSearchFilterIn procByName
        [[plainRepo], [badRepo, archivedRepo]] =
      ({ Found := 0, Inspected := 0, Processed := 0 },
        some (wrapProcessingError "acme/bad" "boom")) ∧
    (runLoop defaultSearchFilterIn procByName
        ([[plainRepo], [badRepo, archivedRepo]] : List (List Repository)).flatten
        initialRunState).1.dispatched = ["acme/lib", "acme/bad"] := by
  have h := worker_error_voids_result defaultSearchFilterIn procByName
    [[plainRepo], [badRepo, archivedRepo]] [plainRepo] [archivedRepo] badRepo "boom"
    (by decide) (by decide) (by decide) (by decide)
  simpa [plainRepo, badRepo] using h

/-! ### C6 — only `errNoDefaultBranch` is recoverable -/

/-- C6: (1) when every issued command succeeds and the record's default
branch name is empty, the clone sequence aborts with the distinct
`errNoDefaultBranch` condition; (2) the dispatcher absorbs exactly this
condition: it appends a warning naming the repository and continues with
the remaining records; (3) any other processing error is fatal: it stops
the loop and is returned wrapped with the repository name. -/
theorem noDefaultBranch_recoverable :
    (∀ (runx : GitCommand → Except String String) (repo : Repository) (opts : Options),
      (∀ c, ∃ s, runx c = Except.ok s) → repo.DefaultBranchName = "" →
      cloneRepository runx repo opts = Except.error CloneError.noDefaultBranch) ∧
    (∀ (f : Repository → Bool) (p : Repository → ProcResult) (r : Repository)
      (rest : List Repository) (st : RunState),
      f r = true → p r = ProcResult.noDefaultBranch →
      runLoop f p (r :: rest) st =
        runLoop f p rest
          { inspected := st.inspected + 1, processed := st.processed + 1,
            dispatched := st.dispatched ++ [r.Name],
            warnings := st.warnings ++ [r.Name] }) ∧
    (∀ (f : Repository → Bool) (p : Repository → ProcResult) (r : Repository)
      (rest : List Repository) (st : RunState) (e : String),
      f r = true → p r = ProcResult.fatal e →
      runLoop f p (r :: rest) st =
        ({ inspected := st.inspected + 1, processed := st.processed + 1,
           dispatched := st.dispatched ++ [r.Name], warnings := st.warnings },
          some (wrapProcessingError r.Name e))) := by
  refine ⟨?_, ?_, ?_⟩
  · intro runx repo opts hok hbranch
    obtain ⟨s1, h1⟩ := hok .gitInit
    obtain ⟨s2, h2⟩ := hok (.remoteAddOrigin (if opts.UseHTTPS then repo.URL else repo.SSHURL))
    obtain ⟨s3, h3⟩ := hok .configSparseCheckout
    obtain ⟨s4, h4⟩ := hok (.writeSparseFile opts.CloningSubset)
    simp only [cloneRepository, h1, h2, h3, h4, hbranch]
    by_cases hs : opts.CloningSubset.length > 0 <;> simp [hs]
  · intro f p r rest st hf hp
    simp [runLoop, hf, hp]
  · intro f p r rest st e hf hp
    simp [runLoop, hf, hp]

/-- C6 witness: the three parts applied at concrete inputs: the
all-commands-succeed oracle with a branchless repository, and one-record
streams on the pass-everything filter with the `noDefaultBranch` and the
fatal processing oracles. -/
theorem noDefaultBranch_recoverable_witness :
    cloneRepository runxOk noBranchRepo optsNoKey = Except.error CloneError.noDefaultBranch ∧
    runLoop trueFilter procNoBranch [noBranchRepo] initialRunState =
      runLoop trueFilter procNoBranch []
        { inspected := 1, processed := 1,
          dispatched := ["acme/nobranch"], warnings := ["acme/nobranch"] } ∧
    runLoop trueFilter procByName [badRepo] initialRunState =
      ({ inspected := 1, processed := 1, dispatched := ["acme/bad"], warnings := [] },
        some (wrapProcessingError "acme/bad" "boom")) := by
  refine ⟨noDefaultBranch_recoverable.1 runxOk noBranchRepo optsNoKey
      (fun c => ⟨"", rfl⟩) rfl, ?_, ?_⟩
  · have h := noDefaultBranch_recoverable.2.1 trueFilter procNoBranch noBranchRepo []
      initialRunState (by decide) (by decide)
    simpa [initialRunState, noBranchRepo, plainRepo] using h
  · have h := noDefaultBranch_recoverable.2.2 trueFilter procByName badRepo []
      initialRunState "boom" (by decide) (by decide)
    simpa [initialRunState, badRepo, plainRepo] using h

/-! ### C7 — empty repositories never reach the clone sequence -/

/-- C7: a record of size 0 produces exactly one event: the caller
processor is invoked with `isEmpty = true` on the execer rooted at the
empty (non-existent) path; in particular no clone directory is acquired,
no cache interaction happens and no directory is removed, for every
clone/cache oracle and every processor. -/
theorem empty_repo_never_cloned
    (acquire : Repository → Except CloneError String)
    (processor : String → Bool → String → Except String Unit)
    (repo : Repository) (h : repo.Size = 0) :
    (processRepository acquire processor repo).1 =
      [RepoEvent.processorCalled repo.Name true ""] := by
  simp [processRepository, h]

/-- C7 witness: the theorem applied to `emptyRepo` with concrete
oracles. -/
theorem empty_repo_never_cloned_witness :
    (processRepository acquireOk processorOk emptyRepo).1 =
      [RepoEvent.processorCalled "acme/empty" true ""] := by
  have h := empty_repo_never_cloned acquireOk processorOk emptyRepo (by decide)
  simpa [emptyRepo, plainRepo] using h

/-! ### C4 — the CEL wrapper is fail-closed -/

/-- C4 counterexample: the claim states that a non-boolean evaluation
result also emits a diagnostic log. Evaluating a program that yields the
integer 100 (for instance the expression `repo.Size`), the wrapper
returns `false` but emits no diagnostic: only the evaluator-error branch
logs. -/
theorem cel_nonbool_no_diagnostic_counterexample :
    celProgInt (repoFieldMap plainRepo) = Except.ok (CelValue.int 100) ∧
    celFilterIn celProgInt plainRepo = (false, none) :=
  ⟨rfl, rfl⟩

/-- C4 (amended): for every compiled program and repository, the wrapper
over the derived field map is fail-closed and total: an evaluator error
yields `false` together with the diagnostic; a boolean result is returned
as the decision with no diagnostic; a non-boolean result yields `false`
with no diagnostic. No branch propagates an error. -/
theorem cel_eval_fail_closed :
    (∀ (prg : RepoFieldMap → Except String CelValue) (r : Repository) (e : String),
      prg (repoFieldMap r) = Except.error e →
      celFilterIn prg r = (false, some ("Failed to evaluate CEL expression: " ++ e))) ∧
    (∀ (prg : RepoFieldMap → Except String CelValue) (r : Repository) (b : Bool),
      prg (repoFieldMap r) = Except.ok (CelValue.bool b) →
      celFilterIn prg r = (b, none)) ∧
    (∀ (prg : RepoFieldMap → Except String CelValue) (r : Repository) (v : CelValue),
      prg (repoFieldMap r) = Except.ok v → (∀ b, v ≠ CelValue.bool b) →
      celFilterIn prg r = (false, none)) := by
  refine ⟨?_, ?_, ?_⟩
  · intro prg r e h
    simp [celFilterIn, h]
  · intro prg r b h
    simp [celFilterIn, h]
  · intro prg r v h hv
    cases v with
    | bool b => exact absurd rfl (hv b)
    | int n => simp [celFilterIn, h]
    | str s => simp [celFilterIn, h]

/-- C4 witness: the three branches of the amended theorem at concrete
programs: a failing evaluation, a boolean result, and a non-boolean
result. -/
theorem cel_eval_fail_closed_witness :
    celFilterIn celProgErr plainRepo =
      (false, some ("Failed to evaluate CEL expression: " ++ "no such attribute")) ∧
    celFilterIn (fun _ => Except.ok (CelValue.bool true)) plainRepo = (true, none) ∧
    celFilterIn celProgInt archivedRepo = (false, none) :=
  ⟨cel_eval_fail_closed.1 celProgErr plainRepo "no such attribute" rfl,
   cel_eval_fail_closed.2.1 (fun _ => Except.ok (CelValue.bool true)) plainRepo true rfl,
   cel_eval_fail_closed.2.2 celProgInt archivedRepo (CelValue.int 100) rfl
     (fun b => by simp)⟩

/-! ### C8 — the synthesized cache key -/

/-- Helper: appending a fixed suffix is injective on strings. -/
theorem string_append_left_inj (suf a b : String) (h : a ++ suf = b ++ suf) : a = b := by
  have hd := congrArg String.data h
  rw [String.data_append, String.data_append] at hd
  exact String.ext (List.append_cancel_right hd)

/-- Helper: appending to a fixed prefix is injective on strings. -/
theorem string_append_right_inj (pre a b : String) (h : pre ++ a = pre ++ b) : a = b := by
  have hd := congrArg String.data h
  rw [String.data_append, String.data_append] at hd
  exact String.ext (List.append_cancel_left hd)

/-- Helper: for a fixed repository and subset, the clone directory name
determines the cache key (string-append cancellation on both sides). -/
theorem cloneDirName_key_inj (repo : Repository) (cs : List String) (k1 k2 : String)
    (h : cloneDirName repo k1 cs = cloneDirName repo k2 cs) : k1 = k2 := by
  by_cases hcs : cs.length > 0
  · simp only [cloneDirName, if_pos hcs] at h
    exact string_append_right_inj (repo.Name ++ "-") k1 k2
      (string_append_left_inj "-" _ _
        (string_append_left_inj (hashCloningSubset cs) _ _ h))
  · simp only [cloneDirName, if_neg hcs] at h
    exact string_append_right_inj (repo.Name ++ "-") k1 k2 h

/-- C8 counterexample: the claim states the synthesized key is globally
unique per call, so two keyless calls never share a clone directory. The
key is the wall clock formatted as `02T15_04_05.999999999`, which renders
neither year nor month: the distinct instants noon January 2 and noon
February 2 yield the same key and hence the same clone directory for the
same repository. -/
theorem synthesized_key_not_unique_counterexample :
    tJan2 ≠ tFeb2 ∧
    cloneDirForCall optsNoKey plainRepo tJan2 = cloneDirForCall optsNoKey plainRepo tFeb2 := by
  decide

/-- C8 (amended): when no cache key function is supplied (or it returns
the empty string), the key synthesized for a call is the formatted
timestamp of the call, and two such calls for the same repository and
options map to the same clone directory exactly when their formatted
timestamps (day-of-month, clock time and fraction) coincide: distinct
formatted timestamps never share a directory, but the key is not
globally unique — equal instants, or instants that agree on everything
except year or month, collide. -/
theorem synthesized_key_determines_dir
    (opts : Options) (repo : Repository) (t1 t2 : GoTime)
    (hkey : opts.CloneCacheKey = none) :
    cloneDirForCall opts repo t1 = cloneDirForCall opts repo t2 ↔
      synthesizedCloneCacheKey t1 = synthesizedCloneCacheKey t2 := by
  have hk : ∀ t, cloneDirForCall opts repo t =
      cloneDirName repo (synthesizedCloneCacheKey t) opts.CloningSubset := by
    intro t
    simp [cloneDirForCall, cacheKeyForCall, hkey]
  rw [hk, hk]
  constructor
  · intro h
    exact cloneDirName_key_inj repo opts.CloningSubset _ _ h
  · intro h
    rw [h]

/-- C8 witness: the amended theorem applied to two instants in different
years and months sharing day-of-month and clock time (they collide), with
the key-function-absent hypothesis discharged on the zero options. -/
theorem synthesized_key_determines_dir_witness :
    cloneDirForCall optsNoKey plainRepo tJan2 = cloneDirForCall optsNoKey plainRepo tMar2 :=
  (synthesized_key_determines_dir optsNoKey plainRepo tJan2 tMar2 rfl).mpr (by decide)

/-! ### C9 — repository name validation -/

/-- C9: `RunForRepository` rejects the repository name with the
`incorrect repository name` error exactly when it contains more than one
`/`, before any other work; a name with no slash at all passes the
validation and proceeds to the repository fetch. -/
theorem runForRepository_name_validation (name : String) :
    ((runForRepositoryStart name).isIncorrectName = true ↔
      stringsCountChar name '/' > 1) ∧
    (stringsCountChar name '/' = 0 →
      runForRepositoryStart name = .fetchRepository ("/repos/" ++ name)) := by
  constructor
  · by_cases h : stringsCountChar name '/' > 1 <;>
      simp [runForRepositoryStart, RunForRepositoryStart.isIncorrectName, h]
  · intro h
    simp [runForRepositoryStart, h]

/-- C9 witness: a doubly-slashed name is rejected; a slashless name
proceeds to the fetch. -/
theorem runForRepository_name_validation_witness :
    (runForRepositoryStart "a/b/c").isIncorrectName = true ∧
    runForRepositoryStart "gh-iterator" = .fetchRepository ("/repos/" ++ "gh-iterator") :=
  ⟨(runForRepository_name_validation "a/b/c").1.mpr (by decide),
   (runForRepository_name_validation "gh-iterator").2 (by decide)⟩

/-! ### C10 — per-page fallback and validation -/

/-- Helper: the page handling never produces the per-page validation
error. -/
theorem pageStep_ne_invalidPerPage (target : String) (page : Int) :
    pageStep target page ≠ OrgRunStart.invalidPerPage := by
  unfold pageStep
  split_ifs <;> simp

/-- C10: in `RunForOrganization`, a `PerPage` of 0 or above `maxPerPage`
(1000) is not an error: the listing target silently falls back to the
default page size `defaultPerPage = 100`; a `PerPage` between 1 and 1000
is used as given; and only a strictly negative `PerPage` produces the
immediate validation error, before the page handling and before any
listing request. -/
theorem perPage_fallback_and_validation (org : String) (perPage page : Int) :
    ((perPage = 0 ∨ perPage > maxPerPage) →
      runForOrganizationStart org perPage page =
        pageStep ("/orgs/" ++ org ++ "/repos" ++ "?per_page=" ++ toString defaultPerPage) page) ∧
    (0 < perPage → perPage ≤ maxPerPage →
      runForOrganizationStart org perPage page =
        pageStep ("/orgs/" ++ org ++ "/repos" ++ "?per_page=" ++ toString perPage) page) ∧
    (perPage < 0 → runForOrganizationStart org perPage page = OrgRunStart.invalidPerPage) ∧
    (0 ≤ perPage → runForOrganizationStart org perPage page ≠ OrgRunStart.invalidPerPage) ∧
    defaultPerPage = 100 := by
  refine ⟨?_, ?_, ?_, ?_, rfl⟩
  · rintro (h | h)
    · simp [runForOrganizationStart, h]
    · simp [runForOrganizationStart, h]
  · intro h1 h2
    have h0 : ¬ perPage = 0 := by omega
    have h3 : ¬ perPage > maxPerPage := by
      simp only [maxPerPage] at h2 ⊢
      omega
    simp [runForOrganizationStart, h0, h3, h1]
  · intro h
    have h0 : ¬ perPage = 0 := by omega
    have h3 : ¬ perPage > maxPerPage := by simp only [maxPerPage]; omega
    have h4 : ¬ perPage > 0 := by omega
    simp [runForOrganizationStart, h0, h3, h4]
  · intro h
    simp only [runForOrganizationStart]
    split_ifs with hA hB
    · exact pageStep_ne_invalidPerPage _ _
    · exact pageStep_ne_invalidPerPage _ _
    · exfalso
      simp at hA hB
      omega

/-- C10 witness: the fallback at `PerPage = 0` (all pages) and at
`PerPage = 2000`, the pass-through at `PerPage = 50`, and the validation
error at `PerPage = -5`. -/
theorem perPage_fallback_and_validation_witness :
    runForOrganizationStart "acme" 0 (-1) =
      OrgRunStart.listing ("/orgs/" ++ "acme" ++ "/repos" ++ "?per_page=" ++ toString (100 : Int)) true ∧
    runForOrganizationStart "acme" 2000 0 =
      OrgRunStart.listing ("/orgs/" ++ "acme" ++ "/repos" ++ "?per_page=" ++ toString (100 : Int)) false ∧
    runForOrganizationStart "acme" 50 0 =
      OrgRunStart.listing ("/orgs/" ++ "acme" ++ "/repos" ++ "?per_page=" ++ toString (50 : Int)) false ∧
    runForOrganizationStart "acme" (-5) 7 = OrgRunStart.invalidPerPage := by
  refine ⟨?_, ?_, ?_, ?_⟩
  · rw [(perPage_fallback_and_validation "acme" 0 (-1)).1 (Or.inl rfl)]
    decide
  · rw [(perPage_fallback_and_validation "acme" 2000 0).1 (Or.inr (by decide))]
    decide
  · rw [(perPage_fallback_and_validation "acme" 50 0).2.1 (by decide) (by decide)]
    decide
  · exact (perPage_fallback_and_validation "acme" (-5) 7).2.2.1 (by decide)

end GhIterator
